import Mathlib

/-!
Verification of the StockInFocus repository's analytics and sync logic.

Dates are modelled as integer day ordinals (a pandas Timestamp normalized to
midnight carries only its day); raw timestamps keep a time-of-day component
that normalization drops.  Prices and returns are modelled as rationals; a
missing value (SQL NULL / pandas NaN) is `Option.none`, and arithmetic on
missing values propagates `none` the way NaN propagates.  Fallible calls
(SQL queries, Drive API calls) are modelled as `Except String` values
supplied by an environment record, so control flow around exceptions can be
proved about.
-/

namespace StockInFocus

/-- A raw timestamp: a day ordinal plus a time-of-day remainder.
`pd.to_datetime(...).dt.normalize()` keeps only the day. -/
structure Stamp where
  day : Int
  tod : Nat
deriving DecidableEq, Repr

/-- `Timestamp.normalize()` / `.dt.normalize()`: truncate to midnight. -/
def Stamp.normalize (t : Stamp) : Int := t.day

/-- The in-memory VNINDEX history `self.vni_map` after `load_vnindex`:
association list from normalized date to close price, in ascending date
order (the SQL query orders by date and `vni_dates` is sorted). -/
abbrev VniMap := List (Int × ℚ)

/-- `bisect.bisect_right(dates, x)` on an ascending list: the insertion
point after any entries equal to `x`, i.e. the length of the prefix of
entries `≤ x`. -/
def bisectRight (dates : List Int) (x : Int) : Nat :=
  (dates.takeWhile (fun d => d ≤ x)).length

/-- `DatabaseManager.get_nearest_vni`: direct lookup of the target date in
`vni_map`; on a miss, `bisect_right` into the sorted `vni_dates` and take
the entry just before the insertion point; `None` when there is none. -/
def get_nearest_vni (m : VniMap) (target : Int) : Option ℚ :=
  match m.lookup target with
  | some c => some c
  | none =>
    if bisectRight (m.map Prod.fst) target > 0 then
      ((m.map Prod.fst)[bisectRight (m.map Prod.fst) target - 1]?).bind
        (fun d => m.lookup d)
    else
      none

theorem lookup_eq_some_of_mem (m : VniMap) (hnd : (m.map Prod.fst).Nodup)
    {d : Int} {c : ℚ} (hm : (d, c) ∈ m) : m.lookup d = some c := by
  induction m with
  | nil => cases hm
  | cons p t ih =>
    obtain ⟨k, v⟩ := p
    rw [List.lookup_cons]
    rcases List.mem_cons.mp hm with heq | ht
    · obtain ⟨rfl, rfl⟩ := Prod.mk.injEq .. ▸ heq
      simp
    · have hk : k ≠ d := by
        intro h
        subst h
        have : k ∈ (t.map Prod.fst) := List.mem_map.mpr ⟨(k, c), ht, rfl⟩
        exact (List.nodup_cons.mp hnd).1 this
      have : (d == k) = false := by
        simp [beq_iff_eq]
        exact fun h => hk h.symm
      rw [this]
      exact ih (List.nodup_cons.mp hnd).2 ht

theorem lookup_eq_none_of_not_mem (m : VniMap) {d : Int}
    (h : d ∉ m.map Prod.fst) : m.lookup d = none := by
  induction m with
  | nil => rfl
  | cons p t ih =>
    obtain ⟨k, v⟩ := p
    rw [List.lookup_cons]
    have hk : (d == k) = false := by
      simp [beq_iff_eq]
      intro heq
      exact h (heq ▸ List.mem_cons_self k _)
    rw [hk]
    exact ih (fun hd => h (List.mem_cons_of_mem _ hd))

theorem takeWhile_eq_filter_of_sorted {l : List Int} {x : Int}
    (h : l.Pairwise (· < ·)) :
    l.takeWhile (fun d => d ≤ x) = l.filter (fun d => d ≤ x) := by
  induction l with
  | nil => rfl
  | cons a t ih =>
    rw [List.takeWhile_cons, List.filter_cons]
    by_cases ha : a ≤ x
    · simp only [decide_eq_true ha, if_pos]
      rw [ih (List.pairwise_cons.mp h).2]
    · simp only [decide_eq_false ha, Bool.false_eq_true, if_false]
      have : t.filter (fun d => decide (d ≤ x)) = [] := by
        rw [List.filter_eq_nil_iff]
        intro b hb
        have hab : a < b := (List.pairwise_cons.mp h).1 b hb
        simp only [decide_eq_true_eq]
        omega
      rw [this]

theorem nodup_of_sorted {l : List Int} (h : l.Pairwise (· < ·)) : l.Nodup :=
  h.imp fun hab => ne_of_lt hab

theorem getElem?_of_isPrefix {l p : List Int} (h : p <+: l) {i : Nat}
    (hi : i < p.length) : l[i]? = p[i]? := by
  obtain ⟨t, rfl⟩ := h
  rw [List.getElem?_append, if_pos hi]

theorem getLast?_of_max {l : List Int} (h : l.Pairwise (· < ·)) {d : Int}
    (hd : d ∈ l) (hub : ∀ e ∈ l, e ≤ d) : l.getLast? = some d := by
  induction l with
  | nil => cases hd
  | cons a t ih =>
    cases t with
    | nil =>
      have : d = a := by simpa using hd
      simp [this]
    | cons b u =>
      have hdt : d ∈ b :: u := by
        rcases List.mem_cons.mp hd with rfl | ht
        · exfalso
          have hab : d < b := (List.pairwise_cons.mp h).1 b (List.mem_cons_self b u)
          have : b ≤ d := hub b (List.mem_cons_of_mem _ (List.mem_cons_self b u))
          omega
        · exact ht
      rw [List.getLast?_cons_cons]
      exact ih (List.pairwise_cons.mp h).2 hdt
        (fun e he => hub e (List.mem_cons_of_mem _ he))

/-- C1: `get_nearest_vni` returns the close at the target date when the
target is a loaded key; otherwise the close at the greatest loaded date
strictly before the target; and `none` when no loaded date is on or
before the target. -/
theorem get_nearest_vni_correct (m : VniMap)
    (hsort : (m.map Prod.fst).Pairwise (· < ·)) (target : Int) :
    (∀ c : ℚ, (target, c) ∈ m → get_nearest_vni m target = some c) ∧
    (target ∉ m.map Prod.fst →
      ((∀ (d : Int) (c : ℚ), (d, c) ∈ m → d < target →
          (∀ e ∈ m.map Prod.fst, e ≤ target → e ≤ d) →
          get_nearest_vni m target = some c) ∧
       ((∀ e ∈ m.map Prod.fst, ¬ e ≤ target) →
          get_nearest_vni m target = none))) := by
  have hnd : (m.map Prod.fst).Nodup := nodup_of_sorted hsort
  constructor
  · intro c hc
    have hl : m.lookup target = some c := lookup_eq_some_of_mem m hnd hc
    unfold get_nearest_vni
    rw [hl]
  · intro hnk
    have hlook : m.lookup target = none := lookup_eq_none_of_not_mem m hnk
    constructor
    · intro d c hm hlt hub
      have hP : (m.map Prod.fst).takeWhile (fun e => e ≤ target)
          = (m.map Prod.fst).filter (fun e => e ≤ target) :=
        takeWhile_eq_filter_of_sorted hsort
      have hdP : d ∈ (m.map Prod.fst).filter (fun e => e ≤ target) := by
        rw [List.mem_filter]
        exact ⟨List.mem_map.mpr ⟨(d, c), hm, rfl⟩, by simpa using le_of_lt hlt⟩
      have hPne : (m.map Prod.fst).filter (fun e => e ≤ target) ≠ [] :=
        List.ne_nil_of_mem hdP
      have hub' : ∀ e ∈ (m.map Prod.fst).filter (fun e => e ≤ target), e ≤ d := by
        intro e he
        have := List.mem_filter.mp he
        exact hub e this.1 (by simpa using this.2)
      have hlast : ((m.map Prod.fst).filter (fun e => e ≤ target)).getLast?
          = some d := getLast?_of_max (hsort.filter _) hdP hub'
      have hidx : bisectRight (m.map Prod.fst) target
          = ((m.map Prod.fst).filter (fun e => e ≤ target)).length := by
        rw [bisectRight, hP]
      have hpos : 0 < ((m.map Prod.fst).filter (fun e => e ≤ target)).length :=
        List.length_pos.mpr hPne
      have hpre : (m.map Prod.fst).filter (fun e => e ≤ target)
          <+: (m.map Prod.fst) := by
        rw [← hP]
        exact List.takeWhile_prefix _
      have hget : (m.map Prod.fst)[bisectRight (m.map Prod.fst) target - 1]?
          = some d := by
        rw [hidx, getElem?_of_isPrefix hpre (by omega),
          ← List.getLast?_eq_getElem?]
        exact hlast
      unfold get_nearest_vni
      rw [hlook]
      rw [if_pos (hidx ▸ hpos), hget]
      exact lookup_eq_some_of_mem m hnd hm
    · intro hall
      have hP : (m.map Prod.fst).takeWhile (fun e => e ≤ target) = [] := by
        rw [takeWhile_eq_filter_of_sorted hsort, List.filter_eq_nil_iff]
        intro e he
        simpa using hall e he
      unfold get_nearest_vni
      rw [hlook]
      rw [if_neg]
      rw [bisectRight, hP]
      simp

/-- C1 witness: the sorted three-day history (1 ↦ 10, 2 ↦ 20, 5 ↦ 50) at
target day 4 yields the close of day 2, the greatest day not after 4. -/
theorem get_nearest_vni_correct_witness :
    get_nearest_vni [((1 : Int), (10 : ℚ)), (2, 20), (5, 50)] 4 = some 20 :=
  ((get_nearest_vni_correct [(1, 10), (2, 20), (5, 50)] (by decide) 4).2
    (by decide)).1 2 20 (by decide) (by decide) (by decide)

/-- A row of the `StockInFocus` table as the SQL query returns it.
Nullable columns are `Option`; a NULL numeric becomes NaN in pandas and is
modelled as `none`. -/
structure RawRow where
  rid : Int
  ticker : String
  pick_date : Stamp
  price_at_call : Option ℚ
  targetPrice : Option ℚ
  stopLoss : Option ℚ
  lastPrice : Option ℚ
  isClosed : Option Int
  current_action : Option String
  shortTermConviction : Option String
  longTermConviction : Option String
  action_date : Option Stamp
  pickedBy : Option String
deriving DecidableEq, Repr

/-- Subtraction of possibly-missing values: NaN propagates. -/
def osub (a b : Option ℚ) : Option ℚ :=
  match a, b with
  | some x, some y => some (x - y)
  | _, _ => none

/-- Division of possibly-missing values: NaN propagates, and a zero
denominator yields no finite value. -/
def odiv (a b : Option ℚ) : Option ℚ :=
  match a, b with
  | some x, some y => if y = 0 then none else some (x / y)
  | _, _ => none

/-- The helper `get_calc_date(row)` inside `get_all_stocks`: the (already
normalized) `Action_Date` when `IsClosed == 1` and `Action_Date` is
non-null, else today's normalized date. -/
def get_calc_date (isClosed : Option Int) (action_date : Option Int)
    (today : Int) : Int :=
  if isClosed = some 1 then
    match action_date with
    | some a => a
    | none => today
  else today

/-- The helper `get_rating(alpha)` inside `get_all_stocks`. -/
def get_rating (alpha : Option ℚ) : String :=
  match alpha with
  | none => "N/A"
  | some a => if a > 0 then "Outperform" else
      if a < 0 then "Underperform" else "Neutral"

/-- A processed row of the DataFrame `get_all_stocks` returns. -/
structure ProcRow where
  rid : Int
  ticker : String
  pick_date : Int
  action_date : Option Int
  calc_close_date : Int
  stock_ret : Option ℚ
  vni_pick : Option ℚ
  vni_close : Option ℚ
  vni_ret : Option ℚ
  alpha : Option ℚ
  rating : String
deriving DecidableEq, Repr

/-- The per-row post-processing of `get_all_stocks`: date normalization,
close-date selection, stock return, nearest-not-after VNI lookups, VNI
return, alpha and rating, in the order of the source. -/
def processRow (vni : VniMap) (today : Int) (r : RawRow) : ProcRow :=
  let pick := r.pick_date.normalize
  let action := r.action_date.map Stamp.normalize
  let calcDate := get_calc_date r.isClosed action today
  let stock_ret := odiv (osub r.lastPrice r.price_at_call) r.price_at_call
  let vni_pick := get_nearest_vni vni pick
  let vni_close := get_nearest_vni vni calcDate
  let vni_ret := odiv (osub vni_close vni_pick) vni_pick
  let alpha := osub stock_ret vni_ret
  { rid := r.rid
    ticker := r.ticker
    pick_date := pick
    action_date := action
    calc_close_date := calcDate
    stock_ret := stock_ret
    vni_pick := vni_pick
    vni_close := vni_close
    vni_ret := vni_ret
    alpha := alpha
    rating := get_rating alpha }

/-- `get_all_stocks`, success path: every queried row is post-processed. -/
def get_all_stocks_rows (vni : VniMap) (today : Int) (rows : List RawRow) :
    List ProcRow :=
  rows.map (processRow vni today)

/-- C4: the close date used in the return calculation is the normalized
`Action_Date` when `IsClosed = 1` and `Action_Date` is non-null, and
today's normalized date otherwise. -/
theorem calc_close_date_correct (vni : VniMap) (today : Int) (r : RawRow) :
    (∀ a : Stamp, r.isClosed = some 1 → r.action_date = some a →
      (processRow vni today r).calc_close_date = a.normalize) ∧
    ((r.isClosed ≠ some 1 ∨ r.action_date = none) →
      (processRow vni today r).calc_close_date = today) := by
  constructor
  · intro a h1 h2
    simp [processRow, h1, h2, get_calc_date, Stamp.normalize]
  · intro h
    rcases h with h | h
    · simp [processRow, get_calc_date, if_neg h]
    · cases hc : r.isClosed with
      | none => simp [processRow, get_calc_date, hc]
      | some n => simp [processRow, get_calc_date, hc, h]

theorem get_rating_some (a : ℚ) :
    (get_rating (some a) = "Outperform" ↔ a > 0) ∧
    (get_rating (some a) = "Underperform" ↔ a < 0) ∧
    (get_rating (some a) = "Neutral" ↔ a = 0) := by
  simp only [get_rating]
  split_ifs with h1 h2
  · exact ⟨⟨fun _ => h1, fun _ => rfl⟩,
      ⟨fun h => absurd h (by decide), fun h => absurd h (lt_asymm h1)⟩,
      ⟨fun h => absurd h (by decide),
        fun h => absurd h1 (by rw [h]; exact lt_irrefl 0)⟩⟩
  · exact ⟨⟨fun h => absurd h (by decide), fun h => absurd h h1⟩,
      ⟨fun _ => h2, fun _ => rfl⟩,
      ⟨fun h => absurd h (by decide),
        fun h => absurd h2 (by rw [h]; exact lt_irrefl 0)⟩⟩
  · have ha : a = 0 := le_antisymm (not_lt.mp h1) (not_lt.mp h2)
    exact ⟨⟨fun h => absurd h (by decide), fun h => absurd h h1⟩,
      ⟨fun h => absurd h (by decide), fun h => absurd h h2⟩,
      ⟨fun _ => ha, fun _ => rfl⟩⟩

theorem get_rating_ne_na (a : ℚ) : get_rating (some a) ≠ "N/A" := by
  simp only [get_rating]
  split_ifs <;> decide

/-- C8: the rating of every processed row is a total classification of its
alpha: "N/A" exactly for a missing alpha, "Outperform" exactly for
positive, "Underperform" exactly for negative, "Neutral" exactly for
zero. -/
theorem rating_classifies_alpha (vni : VniMap) (today : Int)
    (rows : List RawRow) (p : ProcRow)
    (hp : p ∈ get_all_stocks_rows vni today rows) :
    (p.rating = "N/A" ↔ p.alpha = none) ∧
    (∀ a : ℚ, p.alpha = some a →
      ((p.rating = "Outperform" ↔ a > 0) ∧
       (p.rating = "Underperform" ↔ a < 0) ∧
       (p.rating = "Neutral" ↔ a = 0))) := by
  obtain ⟨r, _, rfl⟩ := List.mem_map.mp hp
  have hrat : (processRow vni today r).rating
      = get_rating (processRow vni today r).alpha := rfl
  constructor
  · rw [hrat]
    cases halpha : (processRow vni today r).alpha with
    | none => simp [get_rating]
    | some a =>
      exact ⟨fun h => absurd h (get_rating_ne_na a), fun h => by cases h⟩
  · intro a ha
    rw [hrat, ha]
    exact get_rating_some a

/-- C2: for every row of `get_all_stocks`, the stock return is
(LastPrice - Price_At_Call) / Price_At_Call, the VNI return is
(VNI_Close - VNI_Pick) / VNI_Pick with both legs given by the
nearest-not-after lookup, and Alpha is their difference. -/
theorem get_all_stocks_returns (vni : VniMap) (today : Int)
    (rows : List RawRow) (r : RawRow) (hr : r ∈ rows) (l pc : ℚ)
    (hl : r.lastPrice = some l) (hpc : r.price_at_call = some pc)
    (hpc0 : pc ≠ 0) (vp vc : ℚ)
    (hvp : get_nearest_vni vni r.pick_date.normalize = some vp)
    (hvc : get_nearest_vni vni
      (get_calc_date r.isClosed (r.action_date.map Stamp.normalize) today)
      = some vc)
    (hvp0 : vp ≠ 0) :
    processRow vni today r ∈ get_all_stocks_rows vni today rows ∧
    (processRow vni today r).stock_ret = some ((l - pc) / pc) ∧
    (processRow vni today r).vni_pick = some vp ∧
    (processRow vni today r).vni_close = some vc ∧
    (processRow vni today r).vni_ret = some ((vc - vp) / vp) ∧
    (processRow vni today r).alpha
      = some ((l - pc) / pc - (vc - vp) / vp) := by
  refine ⟨List.mem_map_of_mem _ hr, ?_, ?_, ?_, ?_, ?_⟩ <;>
    simp [processRow, osub, odiv, hl, hpc, hpc0, hvp, hvc, hvp0]

/-- A three-day benchmark history used to instantiate the theorems. -/
def vniEx : VniMap := [(1, 10), (2, 20), (5, 50)]

/-- A concrete open position used to instantiate the theorems. -/
def rowEx : RawRow :=
  { rid := 1
    ticker := "AAA"
    pick_date := ⟨1, 3600⟩
    price_at_call := some 10
    targetPrice := none
    stopLoss := none
    lastPrice := some 15
    isClosed := some 0
    current_action := none
    shortTermConviction := none
    longTermConviction := none
    action_date := none
    pickedBy := none }

/-- C2 witness: on the concrete position picked at day 1 and still open at
day 2, alpha is the stock return minus the benchmark return. -/
theorem get_all_stocks_returns_witness :
    (processRow vniEx 2 rowEx).alpha
      = some (((15 : ℚ) - 10) / 10 - ((20 : ℚ) - 10) / 10) :=
  (get_all_stocks_returns vniEx 2 [rowEx] rowEx (by decide) 15 10 rfl rfl
    (by norm_num) 10 20 rfl rfl (by norm_num)).2.2.2.2.2

/-- C8 witness: on the concrete position the rating is "N/A" exactly when
alpha is missing. -/
theorem rating_classifies_alpha_witness :
    (processRow vniEx 2 rowEx).rating = "N/A"
      ↔ (processRow vniEx 2 rowEx).alpha = none :=
  (rating_classifies_alpha vniEx 2 [rowEx] (processRow vniEx 2 rowEx)
    (List.mem_map_of_mem _ (by decide))).1

/-- Renders a nonnegative rational with one digit after the decimal point,
as Python string-formats the percentage (`f"…:.1f"`), up to the float
rounding of exact ties. -/
def fmtFixed1 (q : ℚ) : String :=
  let n : Int := Int.floor (q * 10 + 1 / 2)
  toString (n / 10) ++ "." ++ toString (n % 10)

/-- The helper `format_pct_count` inside `get_yearly_summary`: counts the
ratings equal to the target and renders "p% (count/total)". -/
def format_pct_count (ratings : List String) (target : String)
    (total : Nat) : String :=
  let count := ratings.countP (fun s => s == target)
  if total = 0 then "0% (0/0)"
  else fmtFixed1 ((count : ℚ) / (total : ℚ) * 100)
    ++ "% (" ++ toString count ++ "/" ++ toString total ++ ")"

/-- A row of the summary DataFrame `get_yearly_summary` builds. -/
structure SummaryRow where
  year : String
  totalCalls : Nat
  avgReturn : Option ℚ
  avgAlpha : Option ℚ
  pctOutperform : String
  pctUnderperform : String
deriving DecidableEq, Repr

/-- `pandas.Series.mean()`: the mean of the present values, `NaN` (here
`none`) when none is present. -/
def meanOpt (l : List (Option ℚ)) : Option ℚ :=
  let vs := l.filterMap id
  if vs.isEmpty then none else some (vs.sum / (vs.length : ℚ))

/-- The rows whose pick year is `y` (`df[df['Year'] == year]`). -/
def rowsOfYear (yearOf : Int → Int) (df : List ProcRow) (y : Int) :
    List ProcRow :=
  df.filter (fun r => yearOf r.pick_date == y)

/-- One summary row of the loop over `years`. -/
def yearSummaryRow (yearOf : Int → Int) (df : List ProcRow) (y : Int) :
    SummaryRow :=
  let ydf := rowsOfYear yearOf df y
  { year := toString y
    totalCalls := ydf.length
    avgReturn := meanOpt (ydf.map (fun r => r.stock_ret))
    avgAlpha := meanOpt (ydf.map (fun r => r.alpha))
    pctOutperform :=
      format_pct_count (ydf.map (fun r => r.rating)) "Outperform" ydf.length
    pctUnderperform :=
      format_pct_count (ydf.map (fun r => r.rating)) "Underperform"
        ydf.length }

/-- The synthetic all-time row appended last by `get_yearly_summary`. -/
def totalSummaryRow (df : List ProcRow) : SummaryRow :=
  { year := "Total"
    totalCalls := df.length
    avgReturn := meanOpt (df.map (fun r => r.stock_ret))
    avgAlpha := meanOpt (df.map (fun r => r.alpha))
    pctOutperform :=
      format_pct_count (df.map (fun r => r.rating)) "Outperform" df.length
    pctUnderperform :=
      format_pct_count (df.map (fun r => r.rating)) "Underperform"
        df.length }

/-- `sorted(..., reverse=True)` on integers. -/
def sortDescInt (l : List Int) : List Int :=
  List.insertionSort (fun a b => b ≤ a) l

instance : IsTotal Int (fun a b => b ≤ a) := ⟨fun a b => le_total b a⟩

instance : IsTrans Int (fun a b => b ≤ a) :=
  ⟨fun _ _ _ h1 h2 => le_trans h2 h1⟩

/-- `sorted(df['Year'].unique(), reverse=True)`. -/
def distinctYears (yearOf : Int → Int) (df : List ProcRow) : List Int :=
  sortDescInt ((df.map (fun r => yearOf r.pick_date)).dedup)

/-- `DatabaseManager.get_yearly_summary` on the rows of its input
DataFrame: empty in, empty out; otherwise one row per distinct pick year
in descending order followed by the all-time "Total" row.  `yearOf` is
the calendar map `.dt.year` from a normalized date to its year. -/
def get_yearly_summary (yearOf : Int → Int) (df : List ProcRow) :
    List SummaryRow :=
  if df.isEmpty then []
  else (distinctYears yearOf df).map (yearSummaryRow yearOf df)
    ++ [totalSummaryRow df]

/-- C3: the yearly summary of a non-empty input holds one row per distinct
pick year in strictly descending year order, followed by exactly one
"Total" row aggregating all input rows; an empty input yields an empty
result. -/
theorem get_yearly_summary_correct (yearOf : Int → Int)
    (df : List ProcRow) :
    (df = [] → get_yearly_summary yearOf df = []) ∧
    (df ≠ [] →
      ((get_yearly_summary yearOf df).getLast?
          = some { year := "Total"
                   totalCalls := df.length
                   avgReturn := meanOpt (df.map (fun r => r.stock_ret))
                   avgAlpha := meanOpt (df.map (fun r => r.alpha))
                   pctOutperform := format_pct_count
                     (df.map (fun r => r.rating)) "Outperform" df.length
                   pctUnderperform := format_pct_count
                     (df.map (fun r => r.rating)) "Underperform"
                     df.length } ∧
       (get_yearly_summary yearOf df).dropLast
          = (distinctYears yearOf df).map (yearSummaryRow yearOf df) ∧
       (distinctYears yearOf df).Pairwise (· > ·) ∧
       (∀ y : Int, y ∈ distinctYears yearOf df
          ↔ ∃ r ∈ df, yearOf r.pick_date = y))) := by
  constructor
  · intro h
    simp [get_yearly_summary, h]
  · intro h
    have hne : df.isEmpty = false := by
      cases df with
      | nil => exact absurd rfl h
      | cons a t => rfl
    have hout : get_yearly_summary yearOf df
        = (distinctYears yearOf df).map (yearSummaryRow yearOf df)
          ++ [totalSummaryRow df] := by
      rw [get_yearly_summary, hne]
      rfl
    refine ⟨?_, ?_, ?_, ?_⟩
    · rw [hout, List.getLast?_concat]
      rfl
    · rw [hout, List.dropLast_concat]
    · have hs : List.Sorted (fun a b : Int => b ≤ a)
          (distinctYears yearOf df) :=
        List.sorted_insertionSort _ _
      have hnd : (distinctYears yearOf df).Nodup :=
        (List.perm_insertionSort _ _).symm.nodup (List.nodup_dedup _)
      exact (hs.and hnd).imp fun hab => lt_of_le_of_ne hab.1 hab.2.symm
    · intro y
      rw [distinctYears, sortDescInt,
        (List.perm_insertionSort _ _).mem_iff, List.mem_dedup,
        List.mem_map]

/-- A pandas DataFrame object as `get_yearly_summary` sees it: its rows
plus the optional derived `Year` column an assignment can add in place. -/
structure DFrame where
  rows : List ProcRow
  yearCol : Option (List Int)
deriving DecidableEq, Repr

/-- A heap of DataFrame objects; a reference is an index into it. -/
abbrev Heap := List DFrame

def heapGet (h : Heap) (r : Nat) : DFrame := (h[r]?).getD ⟨[], none⟩

/-- `df.copy()`: allocate a fresh object with the same contents. -/
def df_copy (h : Heap) (r : Nat) : Heap × Nat :=
  (h ++ [heapGet h r], h.length)

/-- `df['Year'] = df['Pick_Date'].dt.year`: in-place column assignment on
the object `r` points to. -/
def set_year_col (yearOf : Int → Int) (h : Heap) (r : Nat) : Heap :=
  h.set r { heapGet h r with
    yearCol := some ((heapGet h r).rows.map (fun row => yearOf row.pick_date)) }

/-- `get_yearly_summary` with its heap effects made explicit: the empty
check on the argument, then `df = df.copy()` and the in-place `Year`
assignment on the copy, then the aggregation. -/
def get_yearly_summary_heap (yearOf : Int → Int) (h : Heap) (r : Nat) :
    Heap × List SummaryRow :=
  if (heapGet h r).rows.isEmpty then (h, [])
  else
    let hc := df_copy h r
    let h2 := set_year_col yearOf hc.1 hc.2
    (h2, get_yearly_summary yearOf (heapGet h r).rows)

/-- C9: `get_yearly_summary` never mutates its input DataFrame: the object
its argument points to is unchanged on the output heap (the `Year` column
is added to the copy only), and the summary is computed from the same
rows. -/
theorem get_yearly_summary_no_mutation (yearOf : Int → Int) (h : Heap)
    (r : Nat) (hr : r < h.length) :
    ((get_yearly_summary_heap yearOf h r).1)[r]? = h[r]? ∧
    (get_yearly_summary_heap yearOf h r).2
      = get_yearly_summary yearOf (heapGet h r).rows := by
  by_cases he : (heapGet h r).rows.isEmpty
  · constructor
    · simp [get_yearly_summary_heap, he]
    · simp [get_yearly_summary_heap, he, get_yearly_summary,
        List.isEmpty_iff.mp he]
  · refine ⟨?_, by simp [get_yearly_summary_heap, he]⟩
    have hstep : (get_yearly_summary_heap yearOf h r).1
        = set_year_col yearOf (h ++ [heapGet h r]) h.length := by
      simp [get_yearly_summary_heap, he, df_copy]
    rw [hstep, set_year_col]
    rw [List.getElem?_set_ne (by omega)]
    rw [List.getElem?_append, if_pos hr]

/-- A concrete processed row used to instantiate the frame theorem. -/
def procRowEx : ProcRow :=
  { rid := 1
    ticker := "AAA"
    pick_date := 1
    action_date := none
    calc_close_date := 2
    stock_ret := some (1 / 2)
    vni_pick := some 10
    vni_close := some 20
    vni_ret := some 1
    alpha := some (-(1 / 2))
    rating := "Underperform" }

/-- C9 witness: on a one-object heap the input DataFrame is unchanged. -/
theorem get_yearly_summary_no_mutation_witness :
    ((get_yearly_summary_heap (fun d => d) [⟨[procRowEx], none⟩] 0).1)[0]?
      = [(⟨[procRowEx], none⟩ : DFrame)][0]? :=
  (get_yearly_summary_no_mutation (fun d => d) [⟨[procRowEx], none⟩] 0
    (by decide)).1

/-- The environment `get_all_stocks` runs in: the query outcome and a
possible exception from the pandas post-processing steps. -/
structure StocksEnv where
  vni : VniMap
  today : Int
  query : Except String (List RawRow)
  postError : Option String

/-- `get_all_stocks` with its try/except/finally control flow: the
connection count rises at `get_connection()` and falls at the single
`finally: conn.close()`; any exception in the query or the
post-processing is caught and turned into an empty DataFrame. -/
def get_all_stocks_ctl (env : StocksEnv) (conns : Nat) :
    List ProcRow × Nat :=
  let conns1 := conns + 1
  let result :=
    match env.query with
    | Except.error _ => []
    | Except.ok rows =>
      match env.postError with
      | some _ => []
      | none => get_all_stocks_rows env.vni env.today rows
  (result, conns1 - 1)

/-- C10: `get_all_stocks` never propagates an exception: every run yields
a row list, an error in the query or in the post-processing yields the
empty list, and the connection opened by the call is closed on every
path. -/
theorem get_all_stocks_no_raise (env : StocksEnv) (conns : Nat) :
    ((get_all_stocks_ctl env conns).2 = conns) ∧
    (∀ e, env.query = Except.error e →
      (get_all_stocks_ctl env conns).1 = []) ∧
    (∀ m, env.postError = some m →
      (get_all_stocks_ctl env conns).1 = []) ∧
    (∀ rows, env.query = Except.ok rows → env.postError = none →
      (get_all_stocks_ctl env conns).1
        = get_all_stocks_rows env.vni env.today rows) := by
  refine ⟨by simp [get_all_stocks_ctl], ?_, ?_, ?_⟩
  · intro e he
    simp [get_all_stocks_ctl, he]
  · intro m hm
    cases hq : env.query with
    | error e => simp [get_all_stocks_ctl, hq]
    | ok rows => simp [get_all_stocks_ctl, hq, hm]
  · intro rows hq hp
    simp [get_all_stocks_ctl, hq, hp]

/-- The environment `check_and_update_db` runs in: the Drive service
construction, the configured file id, the by-name search and the
download, each able to raise. -/
structure DriveEnv where
  service : Except String Unit
  configFileId : Option String
  searchResult : Except String (Option String)
  download : String → Except String Unit
  targetFileName : String

/-- Python truthiness of an optional string (`if not file_id`). -/
def falsyId : Option String → Bool
  | none => true
  | some s => s.isEmpty

/-- `check_and_update_db`: service, config id (falling back to the
by-name search), download, with the whole body wrapped in
try/except returning `(False, str(e))`. -/
def check_and_update_db (env : DriveEnv) : Bool × String :=
  match env.service with
  | Except.error e => (false, e)
  | Except.ok _ =>
    match (if falsyId env.configFileId then env.searchResult
           else Except.ok env.configFileId) with
    | Except.error e => (false, e)
    | Except.ok fid =>
      if falsyId fid then
        (false, "File '" ++ env.targetFileName ++ "' not found on Drive.")
      else
        match env.download (fid.getD "") with
        | Except.error e => (false, e)
        | Except.ok _ => (true, "Update successful")

/-- C7: `check_and_update_db` always returns a pair: `(True, "Update
successful")` when a file id is available (from config, else by name
search) and the download completes; the not-found message when no id can
be determined; and `(False, <error>)` on any raised exception. -/
theorem check_and_update_db_spec (env : DriveEnv) :
    (∀ e, env.service = Except.error e →
      check_and_update_db env = (false, e)) ∧
    (env.service = Except.ok () →
      ((falsyId env.configFileId = false →
        ((env.download (env.configFileId.getD "") = Except.ok () →
           check_and_update_db env = (true, "Update successful")) ∧
         (∀ e, env.download (env.configFileId.getD "")
             = Except.error e →
           check_and_update_db env = (false, e)))) ∧
       (falsyId env.configFileId = true →
        ((∀ e, env.searchResult = Except.error e →
            check_and_update_db env = (false, e)) ∧
         (∀ fid, env.searchResult = Except.ok fid → falsyId fid = true →
            check_and_update_db env
              = (false, "File '" ++ env.targetFileName
                  ++ "' not found on Drive.")) ∧
         (∀ fid, env.searchResult = Except.ok fid →
            falsyId fid = false →
            ((env.download (fid.getD "") = Except.ok () →
               check_and_update_db env = (true, "Update successful")) ∧
             (∀ e, env.download (fid.getD "") = Except.error e →
               check_and_update_db env = (false, e)))))))) := by
  refine ⟨?_, ?_⟩
  · intro e he
    simp [check_and_update_db, he]
  · intro hs
    refine ⟨?_, ?_⟩
    · intro hcf
      have hffalse : falsyId env.configFileId = false := hcf
      refine ⟨?_, ?_⟩
      · intro hd
        simp [check_and_update_db, hs, hffalse, hd]
      · intro e hd
        simp [check_and_update_db, hs, hffalse, hd]
    · intro hct
      refine ⟨?_, ?_, ?_⟩
      · intro e hsr
        simp [check_and_update_db, hs, hct, hsr]
      · intro fid hsr hf
        simp [check_and_update_db, hs, hct, hsr, hf]
      · intro fid hsr hf
        refine ⟨?_, ?_⟩
        · intro hd
          simp [check_and_update_db, hs, hct, hsr, hf, hd]
        · intro e hd
          simp [check_and_update_db, hs, hct, hsr, hf, hd]

/-- A row of one of the four income-statement tables as the ISA22 query
returns it (already filtered: ISA22 and TICKER non-null, LENGTHSERIES 3). -/
structure ISRow where
  ticker : String
  enddate : Int
  yearreport : Int
  lengthreport : Int
  isa22 : ℚ
deriving DecidableEq, Repr

/-- The four per-table query outcomes `get_income_statement_isa22_pivot`
runs; a failing query is skipped by its `except: continue`. -/
structure PivotEnv where
  bank : Except String (List ISRow)
  company : Except String (List ISRow)
  insurance : Except String (List ISRow)
  securities : Except String (List ISRow)

/-- The per-table results in the iteration order of `table_sources`. -/
def tableResults (env : PivotEnv) :
    List (Except String (List ISRow) × String) :=
  [(env.bank, "Bank"), (env.company, "Company"),
   (env.insurance, "Insurance"), (env.securities, "Securities")]

/-- `all_data`: one tagged result set per table whose query succeeded
(`df['SOURCE'] = source; all_data.append(df)`). -/
def all_data (env : PivotEnv) : List (List (ISRow × String)) :=
  (tableResults env).filterMap (fun ts =>
    match ts.1 with
    | Except.error _ => none
    | Except.ok rows => some (rows.map (fun r => (r, ts.2))))

/-- `df_combined = pd.concat(all_data)`. -/
def combinedRows (env : PivotEnv) : List (ISRow × String) :=
  (all_data env).flatten

/-- Ascending order on the (TICKER, SOURCE) MultiIndex of the pivot. -/
def pairLe (p q : String × String) : Prop :=
  p.1 < q.1 ∨ (p.1 = q.1 ∧ p.2 ≤ q.2)

instance : DecidableRel pairLe := fun p q => by
  unfold pairLe
  infer_instance

instance : IsTotal (String × String) pairLe := ⟨fun p q => by
  rcases lt_trichotomy p.1 q.1 with h | h | h
  · exact Or.inl (Or.inl h)
  · rcases le_total p.2 q.2 with h2 | h2
    · exact Or.inl (Or.inr ⟨h, h2⟩)
    · exact Or.inr (Or.inr ⟨h.symm, h2⟩)
  · exact Or.inr (Or.inl h)⟩

instance : IsTrans (String × String) pairLe := ⟨fun p q r hpq hqr => by
  rcases hpq with h1 | h1
  · rcases hqr with h2 | h2
    · exact Or.inl (lt_trans h1 h2)
    · exact Or.inl (h2.1 ▸ h1)
  · rcases hqr with h2 | h2
    · exact Or.inl (h1.1 ▸ h2)
    · exact Or.inr ⟨h1.1.trans h2.1, le_trans h1.2 h2.2⟩⟩

/-- The distinct (TICKER, SOURCE) pairs, sorted as `pivot_table` sorts its
index (and as `sort_values('TICKER')` then keeps them). -/
def pivotIndex (env : PivotEnv) : List (String × String) :=
  List.insertionSort pairLe
    (((combinedRows env).map (fun rc => (rc.1.ticker, rc.2))).dedup)

/-- The pivot's column labels: the distinct formatted ENDDATEs, sorted. -/
def pivotCols (combined : List (ISRow × String)) (fmt : Int → String) :
    List String :=
  List.insertionSort (fun a b : String => a ≤ b)
    ((combined.map (fun rc => fmt rc.1.enddate)).dedup)

/-- One cell of the pivot (`aggfunc='first'` over the combined frame, the
ISA22 value already divided by 1e9). -/
def pivotCell (combined : List (ISRow × String)) (fmt : Int → String)
    (t s d : String) : Option ℚ :=
  ((combined.filter (fun rc =>
      rc.1.ticker == t && rc.2 == s && fmt rc.1.enddate == d)).head?).map
    (fun rc => rc.1.isa22 / 1000000000)

/-- A row of the returned pivot DataFrame. -/
structure PivotRow where
  ticker : String
  source : String
  cells : List (String × Option ℚ)
deriving DecidableEq, Repr

/-- `get_income_statement_isa22_pivot`: query the four tables (skipping
failures), return `(None, "No data found")` when no query contributed,
else pivot ISA22/1e9 by (TICKER, SOURCE) × formatted ENDDATE with
`aggfunc='first'` and sort rows by TICKER.  `fmt` is the strftime
`'%Y-%m-%d'` rendering of an ENDDATE. -/
def get_income_statement_isa22_pivot (fmt : Int → String)
    (env : PivotEnv) : Option (List PivotRow) × Option String :=
  if (all_data env).isEmpty then (none, some "No data found")
  else
    let combined := combinedRows env
    let cols := pivotCols combined fmt
    let rows := (pivotIndex env).map (fun ts =>
      { ticker := ts.1
        source := ts.2
        cells := cols.map (fun d => (d, pivotCell combined fmt ts.1 ts.2 d))
        : PivotRow })
    (some rows, none)

theorem head?_filter_spec {α : Type} (p : α → Bool) (l : List α) (a : α)
    (h : (l.filter p).head? = some a) :
    ∃ i : Nat, l[i]? = some a ∧ p a = true ∧
      ∀ j, j < i → ∀ b, l[j]? = some b → p b = false := by
  induction l with
  | nil => cases h
  | cons c t ih =>
    rw [List.filter_cons] at h
    by_cases hc : p c = true
    · rw [if_pos hc] at h
      have hac : a = c := by
        have := h
        simp only [List.head?_cons, Option.some.injEq] at this
        exact this.symm
      subst hac
      exact ⟨0, by simp, hc, fun j hj => absurd hj (Nat.not_lt_zero j)⟩
    · rw [if_neg hc] at h
      obtain ⟨i, hi, hpa, hmin⟩ := ih h
      refine ⟨i + 1, by simpa using hi, hpa, ?_⟩
      intro j hj b hb
      cases j with
      | zero =>
        have hbc : b = c := by simpa using hb.symm
        subst hbc
        exact Bool.not_eq_true _ ▸ hc
      | succ j' =>
        have : t[j']? = some b := by simpa using hb
        exact hmin j' (by omega) b this

/-- C5 (amended): when every source-table query fails the function
returns `(None, "No data found")`; otherwise it returns a pivot whose
rows are sorted by TICKER and whose every present cell is the first
matching combined ISA22 value for its (TICKER, SOURCE, ENDDATE) group
divided by 1e9. -/
theorem isa22_pivot_correct (fmt : Int → String) (env : PivotEnv) :
    (all_data env = [] →
      get_income_statement_isa22_pivot fmt env
        = (none, some "No data found")) ∧
    (all_data env ≠ [] →
      ∃ rows, get_income_statement_isa22_pivot fmt env
          = (some rows, none) ∧
        (rows.map (fun pr => pr.ticker)).Pairwise (· ≤ ·) ∧
        (∀ pr ∈ rows, ∀ d v, (d, some v) ∈ pr.cells →
          ∃ (i : Nat) (rc : ISRow × String),
            (combinedRows env)[i]? = some rc ∧
            rc.1.ticker = pr.ticker ∧ rc.2 = pr.source ∧
            fmt rc.1.enddate = d ∧ v = rc.1.isa22 / 1000000000 ∧
            ∀ j, j < i → ∀ rc', (combinedRows env)[j]? = some rc' →
              ¬(rc'.1.ticker = pr.ticker ∧ rc'.2 = pr.source ∧
                fmt rc'.1.enddate = d))) := by
  constructor
  · intro h
    simp [get_income_statement_isa22_pivot, h]
  · intro hne
    have hemp : (all_data env).isEmpty = false := by
      cases hall : all_data env with
      | nil => exact absurd hall hne
      | cons a t => rfl
    refine ⟨(pivotIndex env).map (fun ts =>
      { ticker := ts.1
        source := ts.2
        cells := (pivotCols (combinedRows env) fmt).map (fun d =>
          (d, pivotCell (combinedRows env) fmt ts.1 ts.2 d))
        : PivotRow }), ?_, ?_, ?_⟩
    · rw [get_income_statement_isa22_pivot, hemp]
      rfl
    · rw [List.map_map]
      have hsorted : (pivotIndex env).Pairwise pairLe :=
        List.sorted_insertionSort _ _
      exact hsorted.map _ (fun a b hab =>
        hab.elim le_of_lt (fun he => le_of_eq he.1))
    · intro pr hpr d v hdv
      obtain ⟨ts, hts, rfl⟩ := List.mem_map.mp hpr
      obtain ⟨d', hd', hpair⟩ := List.mem_map.mp hdv
      obtain ⟨hdd, hcell⟩ := Prod.mk.inj hpair
      subst hdd
      rw [pivotCell] at hcell
      obtain ⟨rc, hrc, hv⟩ := Option.map_eq_some'.mp hcell
      obtain ⟨i, hi, hq, hmin⟩ := head?_filter_spec _ _ _ hrc
      simp only [Bool.and_eq_true, beq_iff_eq] at hq
      refine ⟨i, rc, hi, hq.1.1, hq.1.2, hq.2, hv.symm, ?_⟩
      intro j hj rc' hj'
      have hfalse := hmin j hj rc' hj'
      intro hcon
      have hcon1 : rc'.1.ticker = ts.1 := hcon.1
      have hcon2 : rc'.2 = ts.2 := hcon.2.1
      have hcon3 : fmt rc'.1.enddate = d' := hcon.2.2
      have htrue : (rc'.1.ticker == ts.1 && rc'.2 == ts.2
          && fmt rc'.1.enddate == d') = true := by
        simp [hcon1, hcon2, hcon3]
      rw [hfalse] at htrue
      exact Bool.false_ne_true htrue

/-- Every source table succeeding with zero rows: `all_data` holds four
empty result sets, so it is non-empty. -/
def envAllEmpty : PivotEnv :=
  ⟨Except.ok [], Except.ok [], Except.ok [], Except.ok []⟩

/-- C5 counterexample: with four successful zero-row queries no source
table yields any rows, yet the function does not return
`(None, "No data found")` — it returns an empty pivot instead. -/
theorem isa22_pivot_counterexample :
    get_income_statement_isa22_pivot (fun _ => "x") envAllEmpty
      ≠ (none, some "No data found") := by
  have h : get_income_statement_isa22_pivot (fun _ => "x") envAllEmpty
      = (some [], none) := rfl
  rw [h]
  simp

/-- The SQL Server date types recognized by the filter builder. -/
def dateTypes : List String :=
  ["date", "datetime", "datetime2", "smalldatetime", "datetimeoffset"]

/-- The SQL Server numeric types recognized by the filter builder. -/
def numericTypes : List String :=
  ["int", "bigint", "smallint", "tinyint", "decimal", "numeric",
   "float", "real", "money", "smallmoney"]

/-- One condition of the Advanced Filters WHERE-clause builder: the
f-string appended to `where_clauses` for a non-empty filter value, by
operator and column data type. -/
def buildFilterClause (filter_column op filter_value col_type : String) :
    String :=
  if op = "LIKE" then
    "[" ++ filter_column ++ "] LIKE '%" ++ filter_value ++ "%'"
  else if op = "IN" then
    let parts := (filter_value.splitOn ",").map (fun v => v.trim)
    let values :=
      if col_type ∈ numericTypes then String.intercalate ", " parts
      else if col_type ∈ dateTypes then
        String.intercalate ", "
          (parts.map (fun v => "CAST('" ++ v ++ "' AS DATE)"))
      else String.intercalate ", "
        (parts.map (fun v => "'" ++ v ++ "'"))
    "[" ++ filter_column ++ "] IN (" ++ values ++ ")"
  else if col_type ∈ dateTypes then
    "CAST([" ++ filter_column ++ "] AS DATE) " ++ op
      ++ " CAST('" ++ filter_value ++ "' AS DATE)"
  else if col_type ∈ numericTypes then
    "[" ++ filter_column ++ "] " ++ op ++ " " ++ filter_value
  else if op = "=" ∨ op = "!=" then
    "[" ++ filter_column ++ "] " ++ op ++ " '" ++ filter_value ++ "'"
  else
    "[" ++ filter_column ++ "] " ++ op ++ " '" ++ filter_value ++ "'"

/-- The content of a SQL single-quoted literal: the characters up to the
closing quote, with a doubled quote read as one escaped quote; `none`
when the literal never closes. -/
def sqlLitChars : List Char → Option (List Char)
  | [] => none
  | c :: rest =>
    if c = '\'' then
      match rest with
      | '\'' :: rest2 => (sqlLitChars rest2).map (fun l => '\'' :: l)
      | _ => some []
    else (sqlLitChars rest).map (fun l => c :: l)

/-- The characters after the first single quote of a clause. -/
def afterFirstQuote : List Char → Option (List Char)
  | [] => none
  | c :: rest => if c = '\'' then some rest else afterFirstQuote rest

/-- How a SQL parser reads the first string literal of a clause. -/
def sqlLiteralOfClause (s : String) : Option String :=
  (afterFirstQuote s.data).bind
    (fun r => (sqlLitChars r).map (fun l => String.mk l))

/-- C6: for a text-typed column and operator "=" or "!=" the generated
condition splices the user value verbatim and unescaped between single
quotes, and a value containing a single quote escapes the SQL string
literal (the parsed literal is not the value). -/
theorem where_clause_interpolation
    (filter_column op filter_value col_type : String)
    (hd : col_type ∉ dateTypes) (hn : col_type ∉ numericTypes)
    (hop : op = "=" ∨ op = "!=") :
    buildFilterClause filter_column op filter_value col_type
      = "[" ++ filter_column ++ "] " ++ op ++ " '" ++ filter_value ++ "'" ∧
    ∃ v : String, ( '\'' ∈ v.data) ∧
      sqlLiteralOfClause (buildFilterClause "Name" "=" v "varchar")
        ≠ some v := by
  constructor
  · have h1 : ¬ op = "LIKE" := by
      rcases hop with rfl | rfl <;> decide
    have h2 : ¬ op = "IN" := by
      rcases hop with rfl | rfl <;> decide
    rw [buildFilterClause, if_neg h1, if_neg h2, if_neg hd, if_neg hn,
      if_pos hop]
  · refine ⟨"x' OR '1'='1", by decide, ?_⟩
    decide

/-- C6 witness: a concrete text-typed equality filter is spliced
verbatim. -/
theorem where_clause_interpolation_witness :
    buildFilterClause "Name" "=" "abc" "varchar"
      = "[" ++ "Name" ++ "] " ++ "=" ++ " '" ++ "abc" ++ "'" :=
  (where_clause_interpolation "Name" "=" "abc" "varchar"
    (by decide) (by decide) (Or.inl rfl)).1

end StockInFocus
